import Mathlib

/-!
Verification of the peer authorization manager of
`src/libsplinter/src/network/auth/mod.rs` (splinter).

The Rust module keeps, behind one mutex, a `HashMap<String, AuthorizationState>`
of per-peer authorization states, an ordered list of observer callbacks, and
the consumer end of a disconnect channel.  `next_state` drains the disconnect
channel, reads the current state of the peer (defaulting to `Unknown`) and
dispatches on `(state, action)`, mutating the table, calling into the network
registry, and notifying callbacks.  `is_authorized` drains the channel and
reads the table.

The embedding below is a direct state-passing translation: `AuthState` holds
the map (as an association list with HashMap lookup/insert/erase semantics),
the callback list (opaque callback identifiers), the queued disconnect
identifiers, the network registry contents, and a log of the notification
events published to the callbacks.  The network registry (`crate::network::
Network`) is not part of the sources; its three operations are modelled from
the specification's external-interface section.
-/

set_option autoImplicit false

namespace Splinter

/-- The states of a connection during authorization
(Rust `enum AuthorizationState`). -/
inductive AuthorizationState where
  | Unknown
  | Connecting
  | Authorized
  | Unauthorized
  | Internal
deriving DecidableEq, Repr

/-- The state transitions that can be applied on a connection during
authorization (Rust `enum AuthorizationAction`; `TrustIdentifying` carries the
claimed new identity). -/
inductive AuthorizationAction where
  | Connecting
  | TrustIdentifying (newPeerId : String)
  | Unauthorizing
deriving DecidableEq, Repr

/-- The errors that may occur for a connection during authorization
(Rust `enum AuthorizationActionError`). -/
inductive AuthorizationActionError where
  | AlreadyConnecting
  | InvalidMessageOrder (start : AuthorizationState) (action : AuthorizationAction)
  | ConnectionLost
deriving DecidableEq, Repr

/-- The statuses published to callbacks (Rust `enum PeerAuthorizationState`):
only the two terminal observable statuses exist at this type. -/
inductive PeerAuthorizationState where
  | Authorized
  | Unauthorized
deriving DecidableEq, Repr

/-- Lookup in an association list with `HashMap::get` semantics
(first binding wins; the other operations below never create duplicates). -/
def mlookup {α : Type} : List (String × α) → String → Option α
  | [], _ => none
  | (k, v) :: rest, key => if k = key then some v else mlookup rest key

/-- Removal of a key, with `HashMap::remove` semantics (the key is absent
afterwards). -/
def merase {α : Type} : List (String × α) → String → List (String × α)
  | [], _ => []
  | (k, v) :: rest, key => if k = key then merase rest key else (k, v) :: merase rest key

/-- Insertion with `HashMap::insert` semantics: any previous binding of the
key is replaced. -/
def minsert {α : Type} (l : List (String × α)) (key : String) (v : α) :
    List (String × α) :=
  (key, v) :: merase l key

/-- Char-list version of `isPrefixOf`, used to model Rust `str::contains`. -/
def charsHavePrefix : List Char → List Char → Bool
  | [], _ => true
  | _ :: _, [] => false
  | c :: cs, d :: ds => c = d && charsHavePrefix cs ds

/-- Does `p` occur as a contiguous infix of the second list?  Models Rust
`str::contains` on the underlying character sequences. -/
def charsHaveInfix (p : List Char) : List Char → Bool
  | [] => charsHavePrefix p []
  | d :: ds => charsHavePrefix p (d :: ds) || charsHaveInfix p ds

/-- Rust `s.contains(pat)` (substring containment). -/
def strContains (s pat : String) : Bool :=
  charsHaveInfix pat.data s.data

/-- The whole manager state visible through the shared mutex, plus the model of
the external network registry and the observable notification log:

* `states` — the `HashMap<String, AuthorizationState>` of `ManagedAuthorizations`;
* `callbacks` — the registered callbacks, as opaque identifiers in
  registration order;
* `disconnects` — identifiers queued on the disconnect channel
  (`disconnect_receiver`), oldest first;
* `network` — the network registry's identifier-to-endpoint map;
* `log` — the notification events published so far: each entry records one
  `notify_callbacks` invocation, delivered to every registered callback in
  registration order. -/
structure AuthState where
  states : List (String × AuthorizationState)
  callbacks : List Nat
  disconnects : List String
  network : List (String × String)
  log : List (String × PeerAuthorizationState)
deriving DecidableEq, Repr

/-- Modelled from the spec: `get_peer_endpoint(id) → Option<endpoint_string>`
of the Network Registry (the `Network` type is not among the sources). -/
def getPeerEndpoint (network : List (String × String)) (peerId : String) :
    Option String :=
  mlookup network peerId

/-- Modelled from the spec: `update_peer_id(old_id, new_id) → Result<(),_>`,
an atomic rename in the Network Registry.  Renaming an identifier the registry
does not know fails (`none`); on success the new identifier is bound to the
old identifier's endpoint. -/
def updatePeerId (network : List (String × String)) (oldId newId : String) :
    Option (List (String × String)) :=
  match mlookup network oldId with
  | none => none
  | some endpoint => some (minsert (merase network oldId) newId endpoint)

/-- Modelled from the spec: `remove_connection(id) → Result<(),_>` of the
Network Registry.  Removing an identifier the registry does not know fails
(`none`). -/
def removeConnection (network : List (String × String)) (peerId : String) :
    Option (List (String × String)) :=
  match mlookup network peerId with
  | none => none
  | some _ => some (merase network peerId)

/-- The drain performed at the top of `next_state` and `is_authorized`:
collect everything currently on the disconnect channel and remove each
identifier's entry from the state table. -/
def drain (m : AuthState) : AuthState :=
  { m with
    states := m.disconnects.foldl (fun st r => merase st r) m.states
    disconnects := [] }

/-- Rust `AuthorizationManager::notify_callbacks`: every registered callback
is invoked, in registration order, with the same `(peer_id, state)` pair;
callback errors are logged and swallowed.  The model records the published
event on the log. -/
def notifyCallbacks (m : AuthState) (peerId : String)
    (state : PeerAuthorizationState) : AuthState :=
  { m with log := m.log ++ [(peerId, state)] }

/-- The dispatch of `next_state` on the current state and the action, applied
to the already-drained shared state `m`.  Each arm is a direct translation of
the corresponding Rust match arm (the Rust `_` catch-alls are expanded into
the explicit remaining patterns). -/
def dispatchAction (m : AuthState) (peerId : String) :
    AuthorizationState → AuthorizationAction →
    Except AuthorizationActionError AuthorizationState × AuthState
  | .Unknown, .Connecting =>
    match getPeerEndpoint m.network peerId with
    | some endpoint =>
      if strContains endpoint "inproc" then
        (.ok .Internal,
          notifyCallbacks { m with states := minsert m.states peerId .Internal }
            peerId .Authorized)
      else
        (.ok .Connecting, { m with states := minsert m.states peerId .Connecting })
    | none => (.ok .Connecting, { m with states := minsert m.states peerId .Connecting })
  | .Unknown, .Unauthorizing =>
    match removeConnection m.network peerId with
    | none => (.error .ConnectionLost, m)
    | some network => (.ok .Unauthorized, { m with network := network })
  | .Unknown, .TrustIdentifying newId =>
    (.error (.InvalidMessageOrder .Unknown (.TrustIdentifying newId)), m)
  | .Connecting, .Connecting => (.error .AlreadyConnecting, m)
  | .Connecting, .TrustIdentifying newId =>
    let m1 := { m with states := merase m.states peerId }
    match updatePeerId m1.network peerId newId with
    | none => (.error .ConnectionLost, m1)
    | some network =>
      (.ok .Authorized,
        notifyCallbacks
          { m1 with states := minsert m1.states newId .Authorized, network := network }
          newId .Authorized)
  | .Connecting, .Unauthorizing =>
    let m1 := { m with states := merase m.states peerId }
    match removeConnection m1.network peerId with
    | none => (.error .ConnectionLost, m1)
    | some network =>
      (.ok .Unauthorized,
        notifyCallbacks { m1 with network := network } peerId .Unauthorized)
  | .Authorized, .Unauthorizing =>
    let m1 := { m with states := merase m.states peerId }
    match removeConnection m1.network peerId with
    | none => (.error .ConnectionLost, m1)
    | some network =>
      (.ok .Unauthorized,
        notifyCallbacks { m1 with network := network } peerId .Unauthorized)
  | .Authorized, .Connecting =>
    (.error (.InvalidMessageOrder .Authorized .Connecting), m)
  | .Authorized, .TrustIdentifying newId =>
    (.error (.InvalidMessageOrder .Authorized (.TrustIdentifying newId)), m)
  | .Internal, a => (.error (.InvalidMessageOrder .Internal a), m)
  | .Unauthorized, a => (.error (.InvalidMessageOrder .Unauthorized a), m)

/-- Rust `AuthorizationManager::next_state`: under the lock, drain the
disconnect channel, read the peer's current state (defaulting to `Unknown`)
and dispatch.  Returns the `Result` together with the post-call state. -/
def nextState (m : AuthState) (peerId : String) (action : AuthorizationAction) :
    Except AuthorizationActionError AuthorizationState × AuthState :=
  let m' := drain m
  dispatchAction m' peerId ((mlookup m'.states peerId).getD .Unknown) action

/-- Rust `AuthorizationManager::is_authorized`: under the lock, drain the
disconnect channel, then answer `true` iff the entry exists and is
`Authorized` or `Internal`.  Returns the answer with the post-call state. -/
def isAuthorized (m : AuthState) (peerId : String) : Bool × AuthState :=
  let m' := drain m
  (match mlookup m'.states peerId with
   | some .Authorized => true
   | some .Internal => true
   | some _ => false
   | none => false,
   m')

/-- Rust `AuthorizationManager::register_callback`: append the callback to the
list under the lock. -/
def registerCallback (m : AuthState) (c : Nat) : AuthState :=
  { m with callbacks := m.callbacks ++ [c] }

/-- Delivery of one disconnect event: the registry's disconnect listener sends
the lost peer's identifier into the channel. -/
def deliverDisconnect (m : AuthState) (peerId : String) : AuthState :=
  { m with disconnects := m.disconnects ++ [peerId] }

/-- A manager state reachable from construction (empty table, no queued
disconnects, no callbacks, nothing published) over an arbitrary initial
registry, by the manager's operations and disconnect deliveries. -/
inductive Reachable : AuthState → Prop where
  | init (network : List (String × String)) :
      Reachable { states := [], callbacks := [], disconnects := [],
                  network := network, log := [] }
  | next {m : AuthState} (peerId : String) (action : AuthorizationAction) :
      Reachable m → Reachable (nextState m peerId action).2
  | query {m : AuthState} (peerId : String) :
      Reachable m → Reachable (isAuthorized m peerId).2
  | register {m : AuthState} (c : Nat) :
      Reachable m → Reachable (registerCallback m c)
  | disconnect {m : AuthState} (peerId : String) :
      Reachable m → Reachable (deliverDisconnect m peerId)

/-- The sequence of statuses published to callbacks for one peer, in order. -/
def pubSeq (log : List (String × PeerAuthorizationState)) (peerId : String) :
    List PeerAuthorizationState :=
  (log.filter (fun e => e.1 = peerId)).map (fun e => e.2)

/-- The publication shape asserted by the specification for one peer's
published statuses: a prefix of `(Authorized*, Unauthorized?)` in which
`Unauthorized` never precedes `Authorized` and no status repeats — over this
two-status alphabet exactly `[]`, `[Authorized]`, or
`[Authorized, Unauthorized]`. -/
def specPublicationShape (seq : List PeerAuthorizationState) : Bool :=
  seq = [] ∨ seq = [.Authorized] ∨ seq = [.Authorized, .Unauthorized]

/-- Spec invariant 2: every identifier the table holds at `Connecting`,
`Authorized` or `Internal` has an endpoint in the Network Registry. -/
def registryCovers (m : AuthState) : Prop :=
  ∀ q s, mlookup m.states q = some s →
    s = .Connecting ∨ s = .Authorized ∨ s = .Internal →
    (getPeerEndpoint m.network q).isSome = true

deriving instance DecidableEq for Except

/-! ### Concrete states used to exercise the theorems -/

/-- A registry holding one plain-transport peer. -/
def netA : List (String × String) := [("a", "tcp://h:1")]

/-- A freshly constructed manager over `netA`. -/
def mInit : AuthState :=
  { states := [], callbacks := [], disconnects := [], network := netA, log := [] }

/-- An authorized peer whose disconnect event is already queued. -/
def mDisc : AuthState :=
  { states := [("a", .Authorized)], callbacks := [7], disconnects := ["a"],
    network := netA, log := [] }

/-- An `Authorized` and an `Internal` entry, both queued for disconnect. -/
def mDrainDemo : AuthState :=
  { states := [("a", .Authorized), ("b", .Internal)], callbacks := [0, 1],
    disconnects := ["a", "b"], network := netA, log := [] }

/-- Peer `"a"` mid-handshake (the state reached from `mInit` by one
`Connecting` action). -/
def mConnA : AuthState :=
  { states := [("a", .Connecting)], callbacks := [], disconnects := [],
    network := netA, log := [] }

/-- Peer `"a"` mid-handshake while the registry has already lost it. -/
def mConnLost : AuthState :=
  { states := [("a", .Connecting)], callbacks := [], disconnects := [],
    network := [], log := [] }

/-- A manager with one registered observer (callback id 17) and no peers. -/
def mObs : AuthState :=
  { states := [], callbacks := [17], disconnects := [], network := netA, log := [] }

/-- A manager over an empty registry. -/
def mNoNet : AuthState :=
  { states := [], callbacks := [], disconnects := [], network := [], log := [] }

/-- A manager over a registry with two plain-transport peers. -/
def mTwo : AuthState :=
  { states := [], callbacks := [], disconnects := [],
    network := [("a", "tcp://h:1"), ("b", "tcp://h:2")], log := [] }

/-- Run from `mTwo`: connect and unauthorize `"a"`, then connect `"b"` and
trust-identify it as `"a"` — the identifier `"a"` is reused. -/
def c8run : AuthState :=
  (nextState
    (nextState
      (nextState
        (nextState mTwo "a" .Connecting).2
        "a" .Unauthorizing).2
      "b" .Connecting).2
    "b" (.TrustIdentifying "a")).2

/-- A registry holding one in-process peer. -/
def mInproc : AuthState :=
  { states := [], callbacks := [], disconnects := [],
    network := [("ctl", "inproc://ctl")], log := [] }

/-! ### Lemmas about the map operations and the drain -/

theorem mlookup_merase {α : Type} (l : List (String × α)) (k k' : String) :
    mlookup (merase l k) k' = if k' = k then none else mlookup l k' := by
  induction l with
  | nil => simp [merase, mlookup]
  | cons kv rest ih =>
    obtain ⟨a, v⟩ := kv
    by_cases hak : a = k <;> by_cases hkk : k' = k <;> by_cases hak' : a = k' <;>
      simp_all [merase, mlookup]

theorem mlookup_minsert {α : Type} (l : List (String × α)) (k k' : String) (v : α) :
    mlookup (minsert l k v) k' = if k' = k then some v else mlookup l k' := by
  by_cases h : k' = k
  · simp [minsert, mlookup, h]
  · have h2 : ¬k = k' := fun hh => h hh.symm
    simp [minsert, mlookup, h, h2, mlookup_merase]

theorem mlookup_foldl_merase {α : Type} (q : List String)
    (st : List (String × α)) (k : String) :
    mlookup (q.foldl (fun s r => merase s r) st) k =
      if k ∈ q then none else mlookup st k := by
  induction q generalizing st with
  | nil => simp
  | cons r q ih =>
    by_cases hk : k ∈ q
    · simp [List.foldl_cons, ih, hk]
    · by_cases hr : k = r
      · subst hr
        simp [List.foldl_cons, ih, hk, mlookup_merase]
      · simp [List.foldl_cons, ih, hk, hr, mlookup_merase]

@[simp] theorem drain_network (m : AuthState) : (drain m).network = m.network := rfl

@[simp] theorem drain_log (m : AuthState) : (drain m).log = m.log := rfl

@[simp] theorem drain_callbacks (m : AuthState) : (drain m).callbacks = m.callbacks := rfl

@[simp] theorem drain_disconnects (m : AuthState) : (drain m).disconnects = [] := rfl

theorem drain_states_mlookup (m : AuthState) (k : String) :
    mlookup (drain m).states k =
      if k ∈ m.disconnects then none else mlookup m.states k := by
  simp [drain, mlookup_foldl_merase]

theorem drain_of_no_disconnects (m : AuthState) (h : m.disconnects = []) :
    drain m = m := by
  cases m
  simp_all [drain]

/-! ### One equation per Rust match arm of `next_state` -/

theorem nextState_unknown_connecting_inproc (m : AuthState) (p ep : String)
    (hcur : (mlookup (drain m).states p).getD .Unknown = .Unknown)
    (hep : getPeerEndpoint m.network p = some ep)
    (hip : strContains ep "inproc" = true) :
    nextState m p .Connecting =
      (.ok .Internal,
        { drain m with
          states := minsert (drain m).states p .Internal
          log := m.log ++ [(p, .Authorized)] }) := by
  simp [nextState, hcur, dispatchAction, hep, hip, notifyCallbacks]

theorem nextState_unknown_connecting_plain (m : AuthState) (p : String)
    (hcur : (mlookup (drain m).states p).getD .Unknown = .Unknown)
    (hni : ∀ ep, getPeerEndpoint m.network p = some ep →
      strContains ep "inproc" = false) :
    nextState m p .Connecting =
      (.ok .Connecting,
        { drain m with states := minsert (drain m).states p .Connecting }) := by
  rcases hep : getPeerEndpoint m.network p with _ | ep
  · simp [nextState, hcur, dispatchAction, hep]
  · simp [nextState, hcur, dispatchAction, hep, hni ep hep]

theorem nextState_unknown_unauthorizing_ok (m : AuthState) (p : String)
    (network : List (String × String))
    (hcur : (mlookup (drain m).states p).getD .Unknown = .Unknown)
    (hrm : removeConnection m.network p = some network) :
    nextState m p .Unauthorizing =
      (.ok .Unauthorized, { drain m with network := network }) := by
  simp [nextState, hcur, dispatchAction, hrm]

theorem nextState_unknown_unauthorizing_lost (m : AuthState) (p : String)
    (hcur : (mlookup (drain m).states p).getD .Unknown = .Unknown)
    (hrm : removeConnection m.network p = none) :
    nextState m p .Unauthorizing = (.error .ConnectionLost, drain m) := by
  simp [nextState, hcur, dispatchAction, hrm]

theorem nextState_unknown_trust (m : AuthState) (p q : String)
    (hcur : (mlookup (drain m).states p).getD .Unknown = .Unknown) :
    nextState m p (.TrustIdentifying q) =
      (.error (.InvalidMessageOrder .Unknown (.TrustIdentifying q)), drain m) := by
  simp [nextState, hcur, dispatchAction]

theorem nextState_connecting_connecting (m : AuthState) (p : String)
    (hcur : (mlookup (drain m).states p).getD .Unknown = .Connecting) :
    nextState m p .Connecting = (.error .AlreadyConnecting, drain m) := by
  simp [nextState, hcur, dispatchAction]

theorem nextState_connecting_trust_ok (m : AuthState) (p q : String)
    (network : List (String × String))
    (hcur : (mlookup (drain m).states p).getD .Unknown = .Connecting)
    (hup : updatePeerId m.network p q = some network) :
    nextState m p (.TrustIdentifying q) =
      (.ok .Authorized,
        { drain m with
          states := minsert (merase (drain m).states p) q .Authorized
          network := network
          log := m.log ++ [(q, .Authorized)] }) := by
  simp [nextState, hcur, dispatchAction, hup, notifyCallbacks]

theorem nextState_connecting_trust_lost (m : AuthState) (p q : String)
    (hcur : (mlookup (drain m).states p).getD .Unknown = .Connecting)
    (hup : updatePeerId m.network p q = none) :
    nextState m p (.TrustIdentifying q) =
      (.error .ConnectionLost,
        { drain m with states := merase (drain m).states p }) := by
  simp [nextState, hcur, dispatchAction, hup]

theorem nextState_connecting_unauthorizing_ok (m : AuthState) (p : String)
    (network : List (String × String))
    (hcur : (mlookup (drain m).states p).getD .Unknown = .Connecting)
    (hrm : removeConnection m.network p = some network) :
    nextState m p .Unauthorizing =
      (.ok .Unauthorized,
        { drain m with
          states := merase (drain m).states p
          network := network
          log := m.log ++ [(p, .Unauthorized)] }) := by
  simp [nextState, hcur, dispatchAction, hrm, notifyCallbacks]

theorem nextState_connecting_unauthorizing_lost (m : AuthState) (p : String)
    (hcur : (mlookup (drain m).states p).getD .Unknown = .Connecting)
    (hrm : removeConnection m.network p = none) :
    nextState m p .Unauthorizing =
      (.error .ConnectionLost,
        { drain m with states := merase (drain m).states p }) := by
  simp [nextState, hcur, dispatchAction, hrm]

theorem nextState_authorized_unauthorizing_ok (m : AuthState) (p : String)
    (network : List (String × String))
    (hcur : (mlookup (drain m).states p).getD .Unknown = .Authorized)
    (hrm : removeConnection m.network p = some network) :
    nextState m p .Unauthorizing =
      (.ok .Unauthorized,
        { drain m with
          states := merase (drain m).states p
          network := network
          log := m.log ++ [(p, .Unauthorized)] }) := by
  simp [nextState, hcur, dispatchAction, hrm, notifyCallbacks]

theorem nextState_authorized_unauthorizing_lost (m : AuthState) (p : String)
    (hcur : (mlookup (drain m).states p).getD .Unknown = .Authorized)
    (hrm : removeConnection m.network p = none) :
    nextState m p .Unauthorizing =
      (.error .ConnectionLost,
        { drain m with states := merase (drain m).states p }) := by
  simp [nextState, hcur, dispatchAction, hrm]

theorem nextState_authorized_other (m : AuthState) (p : String)
    (a : AuthorizationAction)
    (hcur : (mlookup (drain m).states p).getD .Unknown = .Authorized)
    (ha : a ≠ .Unauthorizing) :
    nextState m p a = (.error (.InvalidMessageOrder .Authorized a), drain m) := by
  cases a with
  | Connecting => simp [nextState, hcur, dispatchAction]
  | TrustIdentifying q => simp [nextState, hcur, dispatchAction]
  | Unauthorizing => exact absurd rfl ha

theorem nextState_internal (m : AuthState) (p : String) (a : AuthorizationAction)
    (hcur : (mlookup (drain m).states p).getD .Unknown = .Internal) :
    nextState m p a = (.error (.InvalidMessageOrder .Internal a), drain m) := by
  simp [nextState, hcur, dispatchAction]

theorem nextState_unauthorized_stored (m : AuthState) (p : String)
    (a : AuthorizationAction)
    (hcur : (mlookup (drain m).states p).getD .Unknown = .Unauthorized) :
    nextState m p a = (.error (.InvalidMessageOrder .Unauthorized a), drain m) := by
  simp [nextState, hcur, dispatchAction]

/-! ### Lemmas about `is_authorized` -/

theorem isAuthorized_state (m : AuthState) (p : String) :
    (isAuthorized m p).2 = drain m := rfl

theorem isAuthorized_true_iff (m : AuthState) (p : String) :
    (isAuthorized m p).1 = true ↔
      mlookup (drain m).states p = some .Authorized ∨
      mlookup (drain m).states p = some .Internal := by
  rcases h : mlookup (drain m).states p with _ | s
  · simp [isAuthorized, h]
  · cases s <;> simp [isAuthorized, h]

/-! ### Exhaustive case analysis of `next_state` -/

/-- Every call to `next_state` lands in exactly one of the thirteen Rust match
arms; each disjunct records the current state, the action, the registry
condition and the full result of the call. -/
theorem nextState_cases (m : AuthState) (p : String) (a : AuthorizationAction) :
    (∃ ep, (mlookup (drain m).states p).getD .Unknown = .Unknown ∧
      a = .Connecting ∧ getPeerEndpoint m.network p = some ep ∧
      strContains ep "inproc" = true ∧
      nextState m p a =
        (.ok .Internal,
          { drain m with
            states := minsert (drain m).states p .Internal
            log := m.log ++ [(p, .Authorized)] })) ∨
    ((mlookup (drain m).states p).getD .Unknown = .Unknown ∧
      a = .Connecting ∧
      (∀ ep, getPeerEndpoint m.network p = some ep →
        strContains ep "inproc" = false) ∧
      nextState m p a =
        (.ok .Connecting,
          { drain m with states := minsert (drain m).states p .Connecting })) ∨
    (∃ net, (mlookup (drain m).states p).getD .Unknown = .Unknown ∧
      a = .Unauthorizing ∧ removeConnection m.network p = some net ∧
      nextState m p a = (.ok .Unauthorized, { drain m with network := net })) ∨
    ((mlookup (drain m).states p).getD .Unknown = .Unknown ∧
      a = .Unauthorizing ∧ removeConnection m.network p = none ∧
      nextState m p a = (.error .ConnectionLost, drain m)) ∨
    (∃ q, (mlookup (drain m).states p).getD .Unknown = .Unknown ∧
      a = .TrustIdentifying q ∧
      nextState m p a = (.error (.InvalidMessageOrder .Unknown a), drain m)) ∨
    ((mlookup (drain m).states p).getD .Unknown = .Connecting ∧
      a = .Connecting ∧
      nextState m p a = (.error .AlreadyConnecting, drain m)) ∨
    (∃ q net, (mlookup (drain m).states p).getD .Unknown = .Connecting ∧
      a = .TrustIdentifying q ∧ updatePeerId m.network p q = some net ∧
      nextState m p a =
        (.ok .Authorized,
          { drain m with
            states := minsert (merase (drain m).states p) q .Authorized
            network := net
            log := m.log ++ [(q, .Authorized)] })) ∨
    (∃ q, (mlookup (drain m).states p).getD .Unknown = .Connecting ∧
      a = .TrustIdentifying q ∧ updatePeerId m.network p q = none ∧
      nextState m p a =
        (.error .ConnectionLost,
          { drain m with states := merase (drain m).states p })) ∨
    (∃ net, ((mlookup (drain m).states p).getD .Unknown = .Connecting ∨
        (mlookup (drain m).states p).getD .Unknown = .Authorized) ∧
      a = .Unauthorizing ∧ removeConnection m.network p = some net ∧
      nextState m p a =
        (.ok .Unauthorized,
          { drain m with
            states := merase (drain m).states p
            network := net
            log := m.log ++ [(p, .Unauthorized)] })) ∨
    (((mlookup (drain m).states p).getD .Unknown = .Connecting ∨
        (mlookup (drain m).states p).getD .Unknown = .Authorized) ∧
      a = .Unauthorizing ∧ removeConnection m.network p = none ∧
      nextState m p a =
        (.error .ConnectionLost,
          { drain m with states := merase (drain m).states p })) ∨
    ((mlookup (drain m).states p).getD .Unknown = .Authorized ∧
      a ≠ .Unauthorizing ∧
      nextState m p a = (.error (.InvalidMessageOrder .Authorized a), drain m)) ∨
    ((mlookup (drain m).states p).getD .Unknown = .Internal ∧
      nextState m p a = (.error (.InvalidMessageOrder .Internal a), drain m)) ∨
    ((mlookup (drain m).states p).getD .Unknown = .Unauthorized ∧
      nextState m p a =
        (.error (.InvalidMessageOrder .Unauthorized a), drain m)) := by
  cases hcur : (mlookup (drain m).states p).getD .Unknown with
  | Unknown =>
    cases a with
    | Connecting =>
      rcases hep : getPeerEndpoint m.network p with _ | ep
      · refine Or.inr (Or.inl ⟨rfl, rfl, fun e he => absurd he (by simp), ?_⟩)
        exact nextState_unknown_connecting_plain m p hcur
          (fun e he => by rw [hep] at he; exact absurd he (by simp))
      · by_cases hip : strContains ep "inproc" = true
        · exact Or.inl ⟨ep, rfl, rfl, rfl, hip,
            nextState_unknown_connecting_inproc m p ep hcur hep hip⟩
        · have hni : ∀ e, getPeerEndpoint m.network p = some e →
              strContains e "inproc" = false := by
            intro e he
            rw [hep] at he
            injection he with he
            subst he
            simpa using hip
          refine Or.inr (Or.inl ⟨rfl, rfl, ?_, nextState_unknown_connecting_plain m p hcur hni⟩)
          intro e he
          injection he with he
          subst he
          simpa using hip
    | TrustIdentifying q =>
      exact Or.inr (Or.inr (Or.inr (Or.inr (Or.inl
        ⟨q, rfl, rfl, nextState_unknown_trust m p q hcur⟩))))
    | Unauthorizing =>
      rcases hrm : removeConnection m.network p with _ | net
      · exact Or.inr (Or.inr (Or.inr (Or.inl
          ⟨rfl, rfl, rfl, nextState_unknown_unauthorizing_lost m p hcur hrm⟩)))
      · exact Or.inr (Or.inr (Or.inl
          ⟨net, rfl, rfl, rfl, nextState_unknown_unauthorizing_ok m p net hcur hrm⟩))
  | Connecting =>
    cases a with
    | Connecting =>
      exact Or.inr (Or.inr (Or.inr (Or.inr (Or.inr (Or.inl
        ⟨rfl, rfl, nextState_connecting_connecting m p hcur⟩)))))
    | TrustIdentifying q =>
      rcases hup : updatePeerId m.network p q with _ | net
      · exact Or.inr (Or.inr (Or.inr (Or.inr (Or.inr (Or.inr (Or.inr (Or.inl
          ⟨q, rfl, rfl, hup, nextState_connecting_trust_lost m p q hcur hup⟩)))))))
      · exact Or.inr (Or.inr (Or.inr (Or.inr (Or.inr (Or.inr (Or.inl
          ⟨q, net, rfl, rfl, hup, nextState_connecting_trust_ok m p q net hcur hup⟩))))))
    | Unauthorizing =>
      rcases hrm : removeConnection m.network p with _ | net
      · exact Or.inr (Or.inr (Or.inr (Or.inr (Or.inr (Or.inr (Or.inr (Or.inr (Or.inr (Or.inl
          ⟨Or.inl rfl, rfl, rfl,
            nextState_connecting_unauthorizing_lost m p hcur hrm⟩)))))))))
      · exact Or.inr (Or.inr (Or.inr (Or.inr (Or.inr (Or.inr (Or.inr (Or.inr (Or.inl
          ⟨net, Or.inl rfl, rfl, rfl,
            nextState_connecting_unauthorizing_ok m p net hcur hrm⟩))))))))
  | Authorized =>
    cases a with
    | Connecting =>
      exact Or.inr (Or.inr (Or.inr (Or.inr (Or.inr (Or.inr (Or.inr (Or.inr (Or.inr (Or.inr (Or.inl
        ⟨rfl, fun h => AuthorizationAction.noConfusion h,
          nextState_authorized_other m p .Connecting hcur
            (fun h => AuthorizationAction.noConfusion h)⟩))))))))))
    | TrustIdentifying q =>
      exact Or.inr (Or.inr (Or.inr (Or.inr (Or.inr (Or.inr (Or.inr (Or.inr (Or.inr (Or.inr (Or.inl
        ⟨rfl, fun h => AuthorizationAction.noConfusion h,
          nextState_authorized_other m p (.TrustIdentifying q) hcur
            (fun h => AuthorizationAction.noConfusion h)⟩))))))))))
    | Unauthorizing =>
      rcases hrm : removeConnection m.network p with _ | net
      · exact Or.inr (Or.inr (Or.inr (Or.inr (Or.inr (Or.inr (Or.inr (Or.inr (Or.inr (Or.inl
          ⟨Or.inr rfl, rfl, rfl,
            nextState_authorized_unauthorizing_lost m p hcur hrm⟩)))))))))
      · exact Or.inr (Or.inr (Or.inr (Or.inr (Or.inr (Or.inr (Or.inr (Or.inr (Or.inl
          ⟨net, Or.inr rfl, rfl, rfl,
            nextState_authorized_unauthorizing_ok m p net hcur hrm⟩))))))))
  | Internal =>
    exact Or.inr (Or.inr (Or.inr (Or.inr (Or.inr (Or.inr (Or.inr (Or.inr (Or.inr (Or.inr (Or.inr (Or.inl
      ⟨rfl, nextState_internal m p a hcur⟩)))))))))))
  | Unauthorized =>
    exact Or.inr (Or.inr (Or.inr (Or.inr (Or.inr (Or.inr (Or.inr (Or.inr (Or.inr (Or.inr (Or.inr (Or.inr
      ⟨rfl, nextState_unauthorized_stored m p a hcur⟩)))))))))))

/-- Whatever `next_state` leaves in the table at any key was either already
there after the drain, or is one of the three values the arms insert. -/
theorem nextState_states_lookup (m : AuthState) (p : String)
    (a : AuthorizationAction) (q : String) (s : AuthorizationState)
    (h : mlookup (nextState m p a).2.states q = some s) :
    mlookup (drain m).states q = some s ∨
    s = .Internal ∨ s = .Connecting ∨ s = .Authorized := by
  rcases nextState_cases m p a with
    ⟨ep, h1, h2, h3, h4, heq⟩ | ⟨h1, h2, h3, heq⟩ | ⟨net, h1, h2, h3, heq⟩ |
    ⟨h1, h2, h3, heq⟩ | ⟨x, h1, h2, heq⟩ | ⟨h1, h2, heq⟩ |
    ⟨x, net, h1, h2, h3, heq⟩ | ⟨x, h1, h2, h3, heq⟩ |
    ⟨net, h1, h2, h3, heq⟩ | ⟨h1, h2, h3, heq⟩ | ⟨h1, h2, heq⟩ |
    ⟨h1, heq⟩ | ⟨h1, heq⟩ <;> rw [heq] at h
  · have h' : mlookup (minsert (drain m).states p .Internal) q = some s := h
    rw [mlookup_minsert] at h'
    split_ifs at h' with hqp
    · injection h' with hs
      exact Or.inr (Or.inl hs.symm)
    · exact Or.inl h'
  · have h' : mlookup (minsert (drain m).states p .Connecting) q = some s := h
    rw [mlookup_minsert] at h'
    split_ifs at h' with hqp
    · injection h' with hs
      exact Or.inr (Or.inr (Or.inl hs.symm))
    · exact Or.inl h'
  · exact Or.inl h
  · exact Or.inl h
  · exact Or.inl h
  · exact Or.inl h
  · have h' : mlookup (minsert (merase (drain m).states p) x .Authorized) q = some s := h
    rw [mlookup_minsert] at h'
    split_ifs at h' with hqx
    · injection h' with hs
      exact Or.inr (Or.inr (Or.inr hs.symm))
    · rw [mlookup_merase] at h'
      split_ifs at h' with hqp
      exact Or.inl h'
  · have h' : mlookup (merase (drain m).states p) q = some s := h
    rw [mlookup_merase] at h'
    split_ifs at h' with hqp
    exact Or.inl h'
  · have h' : mlookup (merase (drain m).states p) q = some s := h
    rw [mlookup_merase] at h'
    split_ifs at h' with hqp
    exact Or.inl h'
  · have h' : mlookup (merase (drain m).states p) q = some s := h
    rw [mlookup_merase] at h'
    split_ifs at h' with hqp
    exact Or.inl h'
  · exact Or.inl h
  · exact Or.inl h
  · exact Or.inl h

/-- Every call publishes nothing, one `Authorized` event, or one
`(p, Unauthorized)` event — the latter only when `p` stood at `Connecting` or
`Authorized` after the drain and its entry has been removed. -/
theorem nextState_log_behavior (m : AuthState) (p : String)
    (a : AuthorizationAction) :
    (nextState m p a).2.log = m.log ∨
    (∃ x, (nextState m p a).2.log = m.log ++ [(x, .Authorized)]) ∨
    ((nextState m p a).2.log = m.log ++ [(p, .Unauthorized)] ∧
      ((mlookup (drain m).states p).getD .Unknown = .Connecting ∨
        (mlookup (drain m).states p).getD .Unknown = .Authorized) ∧
      a = .Unauthorizing ∧
      mlookup (nextState m p a).2.states p = none) := by
  rcases nextState_cases m p a with
    ⟨ep, h1, h2, h3, h4, heq⟩ | ⟨h1, h2, h3, heq⟩ | ⟨net, h1, h2, h3, heq⟩ |
    ⟨h1, h2, h3, heq⟩ | ⟨x, h1, h2, heq⟩ | ⟨h1, h2, heq⟩ |
    ⟨x, net, h1, h2, h3, heq⟩ | ⟨x, h1, h2, h3, heq⟩ |
    ⟨net, h1, h2, h3, heq⟩ | ⟨h1, h2, h3, heq⟩ | ⟨h1, h2, heq⟩ |
    ⟨h1, heq⟩ | ⟨h1, heq⟩ <;> rw [heq]
  · exact Or.inr (Or.inl ⟨p, rfl⟩)
  · exact Or.inl rfl
  · exact Or.inl rfl
  · exact Or.inl rfl
  · exact Or.inl rfl
  · exact Or.inl rfl
  · exact Or.inr (Or.inl ⟨x, rfl⟩)
  · exact Or.inl rfl
  · refine Or.inr (Or.inr ⟨rfl, h1, h2, ?_⟩)
    have h' : mlookup (merase (drain m).states p) p = none := by
      rw [mlookup_merase]
      simp
    exact h'
  · exact Or.inl rfl
  · exact Or.inl rfl
  · exact Or.inl rfl
  · exact Or.inl rfl

/-- Inversion: a call that returns `Ok(Unauthorized)` was an `Unauthorizing`
action, issued from `Unknown` (table untouched) or from
`Connecting`/`Authorized` (the entry removed). -/
theorem nextState_unauthorized_result (m : AuthState) (p : String)
    (a : AuthorizationAction)
    (h : (nextState m p a).1 = .ok .Unauthorized) :
    a = .Unauthorizing ∧
    (((mlookup (drain m).states p).getD .Unknown = .Unknown ∧
        (nextState m p a).2.states = (drain m).states) ∨
      (((mlookup (drain m).states p).getD .Unknown = .Connecting ∨
        (mlookup (drain m).states p).getD .Unknown = .Authorized) ∧
        (nextState m p a).2.states = merase (drain m).states p)) := by
  rcases nextState_cases m p a with
    ⟨ep, h1, h2, h3, h4, heq⟩ | ⟨h1, h2, h3, heq⟩ | ⟨net, h1, h2, h3, heq⟩ |
    ⟨h1, h2, h3, heq⟩ | ⟨x, h1, h2, heq⟩ | ⟨h1, h2, heq⟩ |
    ⟨x, net, h1, h2, h3, heq⟩ | ⟨x, h1, h2, h3, heq⟩ |
    ⟨net, h1, h2, h3, heq⟩ | ⟨h1, h2, h3, heq⟩ | ⟨h1, h2, heq⟩ |
    ⟨h1, heq⟩ | ⟨h1, heq⟩ <;> rw [heq] at h ⊢ <;> simp at h
  · exact ⟨h2, Or.inl ⟨h1, rfl⟩⟩
  · exact ⟨h2, Or.inr ⟨h1, rfl⟩⟩

/-- Inversion: a call that returns `Ok(Internal)` was a `Connecting` action on
an inproc endpoint; it stored `Internal` and published `(p, Authorized)`. -/
theorem nextState_internal_result (m : AuthState) (p : String)
    (a : AuthorizationAction)
    (h : (nextState m p a).1 = .ok .Internal) :
    a = .Connecting ∧
    (nextState m p a).2.log = m.log ++ [(p, .Authorized)] ∧
    mlookup (nextState m p a).2.states p = some .Internal ∧
    (∃ ep, getPeerEndpoint m.network p = some ep ∧
      strContains ep "inproc" = true) := by
  rcases nextState_cases m p a with
    ⟨ep, h1, h2, h3, h4, heq⟩ | ⟨h1, h2, h3, heq⟩ | ⟨net, h1, h2, h3, heq⟩ |
    ⟨h1, h2, h3, heq⟩ | ⟨x, h1, h2, heq⟩ | ⟨h1, h2, heq⟩ |
    ⟨x, net, h1, h2, h3, heq⟩ | ⟨x, h1, h2, h3, heq⟩ |
    ⟨net, h1, h2, h3, heq⟩ | ⟨h1, h2, h3, heq⟩ | ⟨h1, h2, heq⟩ |
    ⟨h1, heq⟩ | ⟨h1, heq⟩ <;> rw [heq] at h ⊢ <;> simp at h
  refine ⟨h2, rfl, ?_, ep, h3, h4⟩
  have h' : mlookup (minsert (drain m).states p .Internal) p = some .Internal := by
    rw [mlookup_minsert]
    simp
  exact h'

/-- Inversion: a call that returns `Ok(Authorized)` was `TrustIdentifying(q)`
from `Connecting`; it renamed the registry entry, rekeyed the table to
`q ↦ Authorized` and published `(q, Authorized)`. -/
theorem nextState_authorized_result (m : AuthState) (p : String)
    (a : AuthorizationAction)
    (h : (nextState m p a).1 = .ok .Authorized) :
    ∃ q net, a = .TrustIdentifying q ∧
      (mlookup (drain m).states p).getD .Unknown = .Connecting ∧
      updatePeerId m.network p q = some net ∧
      (nextState m p a).2 =
        { drain m with
          states := minsert (merase (drain m).states p) q .Authorized
          network := net
          log := m.log ++ [(q, .Authorized)] } := by
  rcases nextState_cases m p a with
    ⟨ep, h1, h2, h3, h4, heq⟩ | ⟨h1, h2, h3, heq⟩ | ⟨net, h1, h2, h3, heq⟩ |
    ⟨h1, h2, h3, heq⟩ | ⟨x, h1, h2, heq⟩ | ⟨h1, h2, heq⟩ |
    ⟨x, net, h1, h2, h3, heq⟩ | ⟨x, h1, h2, h3, heq⟩ |
    ⟨net, h1, h2, h3, heq⟩ | ⟨h1, h2, h3, heq⟩ | ⟨h1, h2, heq⟩ |
    ⟨h1, heq⟩ | ⟨h1, heq⟩ <;> rw [heq] at h ⊢ <;> simp at h
  exact ⟨x, net, h2, h1, h3, rfl⟩

/-- Anything in the drained table was in the table before the drain. -/
theorem mlookup_drain_some (m : AuthState) (q : String) (s : AuthorizationState)
    (h : mlookup (drain m).states q = some s) : mlookup m.states q = some s := by
  rw [drain_states_mlookup] at h
  split_ifs at h
  exact h

/-- A successful `remove_connection` removes exactly the peer's binding. -/
theorem removeConnection_some_eq (network : List (String × String))
    (p : String) (net : List (String × String))
    (h : removeConnection network p = some net) : net = merase network p := by
  unfold removeConnection at h
  rcases hl : mlookup network p with _ | e <;> rw [hl] at h
  · exact absurd h (by simp)
  · injection h with h
    exact h.symm

/-- A successful `update_peer_id` rebinds the old peer's endpoint to the new
identifier. -/
theorem updatePeerId_some_eq (network : List (String × String))
    (p q : String) (net : List (String × String))
    (h : updatePeerId network p q = some net) :
    ∃ ep, mlookup network p = some ep ∧ net = minsert (merase network p) q ep := by
  unfold updatePeerId at h
  rcases hl : mlookup network p with _ | ep <;> rw [hl] at h
  · exact absurd h (by simp)
  · injection h with h
    exact ⟨ep, rfl, h.symm⟩

/-- Reachable states only ever store `Connecting`, `Authorized` or
`Internal`: `Unknown` and `Unauthorized` are never written to the table. -/
theorem reachable_stored_valid {m : AuthState} (hm : Reachable m) :
    ∀ q s, mlookup m.states q = some s →
      s = .Connecting ∨ s = .Authorized ∨ s = .Internal := by
  induction hm with
  | init network =>
    intro q s h
    exact absurd h (by simp [mlookup])
  | next peerId action hr ih =>
    intro q s h
    rcases nextState_states_lookup _ peerId action q s h with h' | h' | h' | h'
    · exact ih q s (mlookup_drain_some _ q s h')
    · exact Or.inr (Or.inr h')
    · exact Or.inl h'
    · exact Or.inr (Or.inl h')
  | query peerId hr ih =>
    intro q s h
    rw [isAuthorized_state] at h
    exact ih q s (mlookup_drain_some _ q s h)
  | register c hr ih =>
    intro q s h
    exact ih q s h
  | disconnect peerId hr ih =>
    intro q s h
    exact ih q s h

/-- A failing call never publishes anything. -/
theorem nextState_error_log (m : AuthState) (p : String)
    (a : AuthorizationAction) (e : AuthorizationActionError)
    (h : (nextState m p a).1 = .error e) :
    (nextState m p a).2.log = m.log := by
  rcases nextState_cases m p a with
    ⟨ep, h1, h2, h3, h4, heq⟩ | ⟨h1, h2, h3, heq⟩ | ⟨net, h1, h2, h3, heq⟩ |
    ⟨h1, h2, h3, heq⟩ | ⟨x, h1, h2, heq⟩ | ⟨h1, h2, heq⟩ |
    ⟨x, net, h1, h2, h3, heq⟩ | ⟨x, h1, h2, h3, heq⟩ |
    ⟨net, h1, h2, h3, heq⟩ | ⟨h1, h2, h3, heq⟩ | ⟨h1, h2, heq⟩ |
    ⟨h1, heq⟩ | ⟨h1, heq⟩ <;> rw [heq] at h ⊢ <;>
      first
      | rfl
      | simp at h

/-! ### The claims -/

/-- C2: For every reachable state of the manager and every call to
`next_state`, after the call returns no entry of the state table holds the
value `Unauthorized`; moreover every transition returning `Unauthorized`
leaves the acting peer without an entry rather than storing a tombstone. -/
theorem c2_no_stored_unauthorized (m : AuthState) (hm : Reachable m)
    (p : String) (a : AuthorizationAction) :
    (∀ q, mlookup (nextState m p a).2.states q ≠ some .Unauthorized) ∧
    ((nextState m p a).1 = .ok .Unauthorized →
      mlookup (nextState m p a).2.states p = none) := by
  constructor
  · intro q hq
    have hpost : Reachable (nextState m p a).2 := Reachable.next p a hm
    rcases reachable_stored_valid hpost q _ hq with h | h | h <;>
      exact absurd h (by decide)
  · intro hok
    rcases nextState_unauthorized_result m p a hok with ⟨ha, hcase | hcase⟩
    · obtain ⟨hcur, hst⟩ := hcase
      rw [hst]
      rcases hl : mlookup (drain m).states p with _ | s
      · rfl
      · rw [hl] at hcur
        simp at hcur
        subst hcur
        rcases reachable_stored_valid hm p _ (mlookup_drain_some m p _ hl)
          with h | h | h <;> exact absurd h (by decide)
    · obtain ⟨hcur, hst⟩ := hcase
      rw [hst, mlookup_merase]
      simp

/-- Witness for C2 at the freshly constructed manager. -/
theorem c2_no_stored_unauthorized_witness :
    (∀ q, mlookup (nextState mInit "a" .Connecting).2.states q ≠
      some .Unauthorized) ∧
    ((nextState mInit "a" .Connecting).1 = .ok .Unauthorized →
      mlookup (nextState mInit "a" .Connecting).2.states "a" = none) :=
  c2_no_stored_unauthorized mInit (Reachable.init netA) "a" .Connecting

/-- C3: once a disconnect for `p` is queued, the very next `next_state` or
`is_authorized` call observes `p` as absent: `is_authorized(p)` is `false`,
the drained table has no entry for `p`, and `next_state` dispatches the
action against `Unknown`. -/
theorem c3_disconnect_observed (m : AuthState) (p : String)
    (a : AuthorizationAction) (hp : p ∈ m.disconnects) :
    (isAuthorized m p).1 = false ∧
    mlookup (drain m).states p = none ∧
    nextState m p a = dispatchAction (drain m) p .Unknown a := by
  have habs : mlookup (drain m).states p = none := by
    rw [drain_states_mlookup]
    simp [hp]
  refine ⟨?_, habs, ?_⟩
  · simp [isAuthorized, habs]
  · simp [nextState, habs]

/-- Witness for C3: an authorized peer with a queued disconnect. -/
theorem c3_disconnect_observed_witness :
    (isAuthorized mDisc "a").1 = false ∧
    mlookup (drain mDisc).states "a" = none ∧
    nextState mDisc "a" .Connecting =
      dispatchAction (drain mDisc) "a" .Unknown .Connecting :=
  c3_disconnect_observed mDisc "a" .Connecting (by decide)

/-- C7: a registry `Err` during rename/remove surfaces `ConnectionLost` and
the table mutation that preceded the registry call stays applied: after a
failed `TrustIdentifying(q)` from `Connecting` the old key is removed and `q`
was never inserted, and after a failed `Unauthorizing` from `Connecting` or
`Authorized` the entry is removed. -/
theorem c7_registry_failure (m : AuthState) (p q : String) :
    ((mlookup (drain m).states p).getD .Unknown = .Connecting →
      updatePeerId m.network p q = none →
      (nextState m p (.TrustIdentifying q)).1 = .error .ConnectionLost ∧
      (nextState m p (.TrustIdentifying q)).2.states =
        merase (drain m).states p) ∧
    (((mlookup (drain m).states p).getD .Unknown = .Connecting ∨
      (mlookup (drain m).states p).getD .Unknown = .Authorized) →
      removeConnection m.network p = none →
      (nextState m p .Unauthorizing).1 = .error .ConnectionLost ∧
      (nextState m p .Unauthorizing).2.states = merase (drain m).states p) := by
  constructor
  · intro hc hup
    rw [nextState_connecting_trust_lost m p q hc hup]
    exact ⟨rfl, rfl⟩
  · rintro (hc | hc) hrm
    · rw [nextState_connecting_unauthorizing_lost m p hc hrm]
      exact ⟨rfl, rfl⟩
    · rw [nextState_authorized_unauthorizing_lost m p hc hrm]
      exact ⟨rfl, rfl⟩

/-- Witness for C7: mid-handshake peer whose registry connection is gone. -/
theorem c7_registry_failure_witness :
    ((nextState mConnLost "a" (.TrustIdentifying "b")).1 =
        .error .ConnectionLost ∧
      (nextState mConnLost "a" (.TrustIdentifying "b")).2.states =
        merase (drain mConnLost).states "a") ∧
    ((nextState mConnLost "a" .Unauthorizing).1 = .error .ConnectionLost ∧
      (nextState mConnLost "a" .Unauthorizing).2.states =
        merase (drain mConnLost).states "a") := by
  have h := c7_registry_failure mConnLost "a" "b"
  exact ⟨h.1 (by decide) (by decide), h.2 (Or.inl (by decide)) (by decide)⟩

/-- C10: the disconnect drain touches only the states map — it removes each
queued identifier whatever state it held, keeps every other entry, and leaves
the callback list, the registry and the published log unchanged; the whole
state effect of `is_authorized` is exactly that drain, so no notification is
ever produced by it. -/
theorem c10_drain_frame (m : AuthState) (p : String) :
    (drain m).callbacks = m.callbacks ∧
    (drain m).log = m.log ∧
    (drain m).network = m.network ∧
    (∀ q, q ∈ m.disconnects → mlookup (drain m).states q = none) ∧
    (∀ q, q ∉ m.disconnects →
      mlookup (drain m).states q = mlookup m.states q) ∧
    (isAuthorized m p).2 = drain m ∧
    (isAuthorized m p).2.log = m.log ∧
    (isAuthorized m p).2.callbacks = m.callbacks := by
  refine ⟨rfl, rfl, rfl, ?_, ?_, rfl, rfl, rfl⟩
  · intro q hq
    rw [drain_states_mlookup]
    simp [hq]
  · intro q hq
    rw [drain_states_mlookup]
    simp [hq]

/-- Witness for C10: `Authorized` and `Internal` entries vanish silently. -/
theorem c10_drain_frame_witness :
    (drain mDrainDemo).callbacks = mDrainDemo.callbacks ∧
    mlookup (drain mDrainDemo).states "a" = none ∧
    mlookup (drain mDrainDemo).states "b" = none ∧
    (isAuthorized mDrainDemo "c").2.log = mDrainDemo.log := by
  have h := c10_drain_frame mDrainDemo "c"
  exact ⟨h.1, h.2.2.2.1 "a" (by decide), h.2.2.2.1 "b" (by decide),
    h.2.2.2.2.2.2.1⟩


/-- C9: starting from `Unknown` with no pending disconnects and a non-inproc
endpoint, two successive `Connecting` actions for `p` return `Ok(Connecting)`
then `Err(AlreadyConnecting)`, and the failing second call leaves the state
table unchanged with `p` still at `Connecting`. -/
theorem c9_double_connecting (m : AuthState) (p ep : String)
    (hq : m.disconnects = [])
    (hs : mlookup m.states p = none)
    (hep : getPeerEndpoint m.network p = some ep)
    (hni : strContains ep "inproc" = false) :
    (nextState m p .Connecting).1 = .ok .Connecting ∧
    (nextState (nextState m p .Connecting).2 p .Connecting).1 =
      .error .AlreadyConnecting ∧
    (nextState (nextState m p .Connecting).2 p .Connecting).2.states =
      (nextState m p .Connecting).2.states ∧
    mlookup (nextState (nextState m p .Connecting).2 p .Connecting).2.states p =
      some .Connecting := by
  have hcur : (mlookup (drain m).states p).getD .Unknown = .Unknown := by
    rw [drain_states_mlookup]
    simp [hq, hs]
  have hni' : ∀ e, getPeerEndpoint m.network p = some e →
      strContains e "inproc" = false := by
    intro e he
    rw [hep] at he
    injection he with he
    subst he
    exact hni
  have h1 := nextState_unknown_connecting_plain m p hcur hni'
  have e2 : (nextState m p .Connecting).2 =
      { drain m with states := minsert (drain m).states p .Connecting } := by
    rw [h1]
  have hd1 : drain ({ drain m with
      states := minsert (drain m).states p .Connecting } : AuthState) =
      { drain m with states := minsert (drain m).states p .Connecting } :=
    drain_of_no_disconnects _ rfl
  have hcur1 : (mlookup (drain ({ drain m with
      states := minsert (drain m).states p .Connecting } : AuthState)).states p).getD
        .Unknown = .Connecting := by
    rw [hd1]
    show (mlookup (minsert (drain m).states p .Connecting) p).getD .Unknown =
      .Connecting
    rw [mlookup_minsert]
    simp
  have h2 := nextState_connecting_connecting _ p hcur1
  refine ⟨by rw [h1], ?_, ?_, ?_⟩
  · rw [e2, h2]
  · rw [e2, h2, hd1]
  · rw [e2, h2, hd1]
    show mlookup (minsert (drain m).states p .Connecting) p = some .Connecting
    rw [mlookup_minsert]
    simp


/-- Witness for C9 at the freshly constructed manager over `netA`. -/
theorem c9_double_connecting_witness :
    (nextState mInit "a" .Connecting).1 = .ok .Connecting ∧
    (nextState (nextState mInit "a" .Connecting).2 "a" .Connecting).1 =
      .error .AlreadyConnecting ∧
    (nextState (nextState mInit "a" .Connecting).2 "a" .Connecting).2.states =
      (nextState mInit "a" .Connecting).2.states ∧
    mlookup
      (nextState (nextState mInit "a" .Connecting).2 "a" .Connecting).2.states
      "a" = some .Connecting :=
  c9_double_connecting mInit "a" "tcp://h:1" rfl (by decide) (by decide)
    (by decide)

/-- C5 amended: for *distinct* identifiers `p ≠ q`, whenever
`next_state(p, TrustIdentifying(q))` returns `Authorized`, an immediately
following `is_authorized(p)` is `false` and `is_authorized(q)` is `true`;
and `is_authorized` answers `true` exactly when the (drained) entry exists
and equals `Authorized` or `Internal`.  The original claim, quantified over
every pair including `p = q`, is refuted by `c5_counterexample`. -/
theorem c5_trust_rekeys (m : AuthState) (p q : String) (hpq : p ≠ q)
    (hok : (nextState m p (.TrustIdentifying q)).1 = .ok .Authorized) :
    (isAuthorized (nextState m p (.TrustIdentifying q)).2 p).1 = false ∧
    (isAuthorized (nextState m p (.TrustIdentifying q)).2 q).1 = true ∧
    (∀ (n : AuthState) (r : String),
      (isAuthorized n r).1 = true ↔
        mlookup (drain n).states r = some .Authorized ∨
        mlookup (drain n).states r = some .Internal) := by
  obtain ⟨x, net, hax, hcur, hup, hpost⟩ :=
    nextState_authorized_result m p _ hok
  injection hax with hx
  subst hx
  have hdisc : ((nextState m p (.TrustIdentifying q)).2).disconnects = [] := by
    rw [hpost]
    rfl
  have hdf := drain_of_no_disconnects _ hdisc
  have hstates : (nextState m p (.TrustIdentifying q)).2.states =
      minsert (merase (drain m).states p) q .Authorized := by
    rw [hpost]
  have hlp : mlookup
      (drain (nextState m p (.TrustIdentifying q)).2).states p = none := by
    rw [hdf, hstates, mlookup_minsert, if_neg hpq, mlookup_merase, if_pos rfl]
  have hlq : mlookup
      (drain (nextState m p (.TrustIdentifying q)).2).states q =
      some .Authorized := by
    rw [hdf, hstates, mlookup_minsert, if_pos rfl]
  exact ⟨by simp [isAuthorized, hlp], by simp [isAuthorized, hlq],
    fun n r => isAuthorized_true_iff n r⟩

/-- Witness for C5 from the mid-handshake state `mConnA`. -/
theorem c5_trust_rekeys_witness :
    (isAuthorized (nextState mConnA "a" (.TrustIdentifying "b")).2 "a").1 =
      false ∧
    (isAuthorized (nextState mConnA "a" (.TrustIdentifying "b")).2 "b").1 =
      true ∧
    (∀ (n : AuthState) (r : String),
      (isAuthorized n r).1 = true ↔
        mlookup (drain n).states r = some .Authorized ∨
        mlookup (drain n).states r = some .Internal) :=
  c5_trust_rekeys mConnA "a" "b" (by decide) (by decide)

/-- C5 counterexample: with `p = q = "a"` from the reachable mid-handshake
state `mConnA`, `next_state("a", TrustIdentifying("a"))` returns `Authorized`
yet `is_authorized("a")` is `true`, not `false` as the claim demands for
`p`. -/
theorem c5_counterexample :
    Reachable mConnA ∧
    (nextState mConnA "a" (.TrustIdentifying "a")).1 = .ok .Authorized ∧
    (isAuthorized (nextState mConnA "a" (.TrustIdentifying "a")).2 "a").1 =
      true := by
  refine ⟨?_, by decide, by decide⟩
  have h := Reachable.next "a" .Connecting (Reachable.init netA)
  have e : (nextState mInit "a" .Connecting).2 = mConnA := by decide
  exact e ▸ h


/-- C4 counterexample: in the reachable state `mObs` a callback is
registered, and `next_state("a", Unauthorizing)` from `Unknown` returns
`Ok(Unauthorized)` — a transition to a terminal observable status — yet no
notification is published (the log stays empty), contradicting the claim that
every transition returning `Unauthorized` notifies the callbacks. -/
theorem c4_counterexample :
    Reachable mObs ∧
    mObs.callbacks = [17] ∧
    (nextState mObs "a" .Unauthorizing).1 = .ok .Unauthorized ∧
    (nextState mObs "a" .Unauthorizing).2.log = [] := by
  refine ⟨?_, rfl, by decide, by decide⟩
  have h := Reachable.register 17 (Reachable.init netA)
  have e : registerCallback mInit 17 = mObs := by decide
  exact e ▸ h

/-- C4 amended: transitions returning `Internal` notify with
`(p, Authorized)`; transitions returning `Authorized` notify with
`(new_id, Authorized)`; `Unauthorizing` from `Connecting` or `Authorized`
notifies with `(p, Unauthorized)`; but `Unauthorizing` from `Unknown` returns
`Unauthorized` without invoking any callback, and failing transitions never
notify. -/
theorem c4_notification_discipline (m : AuthState) (p : String)
    (a : AuthorizationAction) :
    ((nextState m p a).1 = .ok .Internal →
      (nextState m p a).2.log = m.log ++ [(p, .Authorized)]) ∧
    ((nextState m p a).1 = .ok .Authorized →
      ∃ q, a = .TrustIdentifying q ∧
        (nextState m p a).2.log = m.log ++ [(q, .Authorized)]) ∧
    ((nextState m p a).1 = .ok .Unauthorized →
      (((mlookup (drain m).states p).getD .Unknown = .Unknown ∧
          (nextState m p a).2.log = m.log) ∨
        (((mlookup (drain m).states p).getD .Unknown = .Connecting ∨
          (mlookup (drain m).states p).getD .Unknown = .Authorized) ∧
          (nextState m p a).2.log = m.log ++ [(p, .Unauthorized)]))) ∧
    (∀ e, (nextState m p a).1 = .error e → (nextState m p a).2.log = m.log) := by
  refine ⟨?_, ?_, ?_, ?_⟩
  · intro h
    exact (nextState_internal_result m p a h).2.1
  · intro h
    obtain ⟨q, net, haq, hcur, hup, hpost⟩ := nextState_authorized_result m p a h
    refine ⟨q, haq, ?_⟩
    rw [hpost]
  · intro h
    rcases nextState_cases m p a with
      ⟨ep, h1, h2, h3, h4, heq⟩ | ⟨h1, h2, h3, heq⟩ | ⟨net, h1, h2, h3, heq⟩ |
      ⟨h1, h2, h3, heq⟩ | ⟨x, h1, h2, heq⟩ | ⟨h1, h2, heq⟩ |
      ⟨x, net, h1, h2, h3, heq⟩ | ⟨x, h1, h2, h3, heq⟩ |
      ⟨net, h1, h2, h3, heq⟩ | ⟨h1, h2, h3, heq⟩ | ⟨h1, h2, heq⟩ |
      ⟨h1, heq⟩ | ⟨h1, heq⟩ <;> rw [heq] at h ⊢ <;> simp at h
    · exact Or.inl ⟨h1, rfl⟩
    · exact Or.inr ⟨h1, rfl⟩
  · intro e h
    exact nextState_error_log m p a e h

/-- Witness for C4 amended: the inproc fast path publishes
`(ctl, Authorized)`. -/
theorem c4_notification_discipline_witness :
    (nextState mInproc "ctl" .Connecting).2.log =
      mInproc.log ++ [("ctl", .Authorized)] :=
  (c4_notification_discipline mInproc "ctl" .Connecting).1 (by decide)

/-- C8 amended: each `next_state` call publishes at most one event —
nothing, one `Authorized` event, or one `(p, Unauthorized)` event, the latter
only when `p` stood at `Connecting` or `Authorized` after the drain and its
entry is removed by the call.  The claimed global per-peer shape (a prefix of
`(Authorized*, Unauthorized?)`, never `Unauthorized` before `Authorized`,
never repeated) does not hold, because a handshake can be aborted before any
`Authorized` is published and identifiers can be re-trusted after eviction;
see `c8_counterexample`. -/
theorem c8_publication_discipline (m : AuthState) (p : String)
    (a : AuthorizationAction) :
    (nextState m p a).2.log = m.log ∨
    (∃ x, (nextState m p a).2.log = m.log ++ [(x, .Authorized)]) ∨
    ((nextState m p a).2.log = m.log ++ [(p, .Unauthorized)] ∧
      ((mlookup (drain m).states p).getD .Unknown = .Connecting ∨
        (mlookup (drain m).states p).getD .Unknown = .Authorized) ∧
      mlookup (nextState m p a).2.states p = none) := by
  rcases nextState_log_behavior m p a with h | h | ⟨h1, h2, h3, h4⟩
  · exact Or.inl h
  · exact Or.inr (Or.inl h)
  · exact Or.inr (Or.inr ⟨h1, h2, h4⟩)

/-- C8 counterexample: the reachable run `c8run` (connect and unauthorize
`"a"`, then connect `"b"` and trust-identify it as `"a"`) publishes the
sequence `[Unauthorized, Authorized]` for `"a"` — `Unauthorized` before any
`Authorized`, outside the claimed shape. -/
theorem c8_counterexample :
    Reachable c8run ∧
    pubSeq c8run.log "a" = [.Unauthorized, .Authorized] ∧
    specPublicationShape (pubSeq c8run.log "a") = false := by
  refine ⟨?_, by decide, by decide⟩
  have h := Reachable.next "b" (.TrustIdentifying "a")
    (Reachable.next "b" .Connecting
      (Reachable.next "a" .Unauthorizing
        (Reachable.next "a" .Connecting (Reachable.init mTwo.network))))
  have e : (nextState
      (nextState
        (nextState
          (nextState { states := [], callbacks := [], disconnects := []
                       network := mTwo.network, log := [] }
            "a" .Connecting).2
          "a" .Unauthorizing).2
        "b" .Connecting).2
      "b" (.TrustIdentifying "a")).2 = c8run := by decide
  exact e ▸ h


/-- C6 counterexample: from the reachable state `mNoNet` (empty registry),
`next_state("a", Connecting)` succeeds and stores `Connecting` for `"a"`
although the registry holds no endpoint for `"a"`, violating invariant 2. -/
theorem c6_counterexample :
    Reachable mNoNet ∧
    (nextState mNoNet "a" .Connecting).1 = .ok .Connecting ∧
    mlookup (nextState mNoNet "a" .Connecting).2.states "a" =
      some .Connecting ∧
    getPeerEndpoint (nextState mNoNet "a" .Connecting).2.network "a" = none :=
  ⟨Reachable.init [], by decide, by decide, by decide⟩

/-- C6 amended: invariant 2 (every identifier stored at `Connecting`,
`Authorized` or `Internal` has a registry endpoint) is preserved by
`next_state` *provided* a `Connecting` action dispatched from `Unknown` is
only issued for a peer the registry has an endpoint for; without that proviso
the `Connecting` arm inserts an entry with no endpoint
(`c6_counterexample`). -/
theorem c6_registry_coverage (m : AuthState) (p : String)
    (a : AuthorizationAction)
    (hm : registryCovers m)
    (hc : a = .Connecting →
      (mlookup (drain m).states p).getD .Unknown = .Unknown →
      (getPeerEndpoint m.network p).isSome = true) :
    registryCovers (nextState m p a).2 := by
  have hmd : ∀ q s, mlookup (drain m).states q = some s →
      s = .Connecting ∨ s = .Authorized ∨ s = .Internal →
      (getPeerEndpoint m.network q).isSome = true := by
    intro q s h hs
    exact hm q s (mlookup_drain_some m q s h) hs
  rcases nextState_cases m p a with
    ⟨ep, h1, h2, h3, h4, heq⟩ | ⟨h1, h2, h3, heq⟩ | ⟨net, h1, h2, h3, heq⟩ |
    ⟨h1, h2, h3, heq⟩ | ⟨x, h1, h2, heq⟩ | ⟨h1, h2, heq⟩ |
    ⟨x, net, h1, h2, h3, heq⟩ | ⟨x, h1, h2, h3, heq⟩ |
    ⟨net, h1, h2, h3, heq⟩ | ⟨h1, h2, h3, heq⟩ | ⟨h1, h2, heq⟩ |
    ⟨h1, heq⟩ | ⟨h1, heq⟩ <;> intro q s hq hs <;> rw [heq] at hq ⊢
  -- arm 1: Unknown/Connecting, inproc endpoint: inserts Internal at p
  · have hq' : mlookup (minsert (drain m).states p .Internal) q = some s := hq
    show (getPeerEndpoint m.network q).isSome = true
    by_cases hqp : q = p
    · subst hqp
      rw [h3]
      rfl
    · rw [mlookup_minsert, if_neg hqp] at hq'
      exact hmd q s hq' hs
  -- arm 2: Unknown/Connecting, plain endpoint: inserts Connecting at p
  · have hq' : mlookup (minsert (drain m).states p .Connecting) q = some s := hq
    show (getPeerEndpoint m.network q).isSome = true
    by_cases hqp : q = p
    · subst hqp
      exact hc h2 h1
    · rw [mlookup_minsert, if_neg hqp] at hq'
      exact hmd q s hq' hs
  -- arm 3: Unknown/Unauthorizing, registry remove succeeds
  · have hq' : mlookup (drain m).states q = some s := hq
    show (getPeerEndpoint net q).isSome = true
    by_cases hqp : q = p
    · subst hqp
      rw [hq'] at h1
      simp at h1
      subst h1
      rcases hs with h | h | h <;> exact absurd h (by decide)
    · have hnet : getPeerEndpoint net q = getPeerEndpoint m.network q := by
        rw [removeConnection_some_eq m.network p net h3]
        show mlookup (merase m.network p) q = mlookup m.network q
        rw [mlookup_merase, if_neg hqp]
      rw [hnet]
      exact hmd q s hq' hs
  -- arm 4: Unknown/Unauthorizing, registry remove fails
  · exact hmd q s hq hs
  -- arm 5: Unknown/TrustIdentifying
  · exact hmd q s hq hs
  -- arm 6: Connecting/Connecting
  · exact hmd q s hq hs
  -- arm 7: Connecting/TrustIdentifying, rename succeeds
  · obtain ⟨ep0, hep0, hneteq⟩ := updatePeerId_some_eq m.network p x net h3
    have hq' : mlookup (minsert (merase (drain m).states p) x .Authorized) q =
        some s := hq
    show (getPeerEndpoint net q).isSome = true
    by_cases hqx : q = x
    · subst hqx
      have : getPeerEndpoint net q = some ep0 := by
        rw [hneteq]
        show mlookup (minsert (merase m.network p) q ep0) q = some ep0
        rw [mlookup_minsert, if_pos rfl]
      rw [this]
      rfl
    · rw [mlookup_minsert, if_neg hqx] at hq'
      by_cases hqp : q = p
      · subst hqp
        rw [mlookup_merase, if_pos rfl] at hq'
        simp at hq'
      · rw [mlookup_merase, if_neg hqp] at hq'
        have hnet : getPeerEndpoint net q = getPeerEndpoint m.network q := by
          rw [hneteq]
          show mlookup (minsert (merase m.network p) x ep0) q =
            mlookup m.network q
          rw [mlookup_minsert, if_neg hqx, mlookup_merase, if_neg hqp]
        rw [hnet]
        exact hmd q s hq' hs
  -- arm 8: Connecting/TrustIdentifying, rename fails
  · have hq' : mlookup (merase (drain m).states p) q = some s := hq
    show (getPeerEndpoint m.network q).isSome = true
    by_cases hqp : q = p
    · subst hqp
      rw [mlookup_merase, if_pos rfl] at hq'
      simp at hq'
    · rw [mlookup_merase, if_neg hqp] at hq'
      exact hmd q s hq' hs
  -- arm 9: Connecting|Authorized / Unauthorizing, remove succeeds
  · have hq' : mlookup (merase (drain m).states p) q = some s := hq
    show (getPeerEndpoint net q).isSome = true
    by_cases hqp : q = p
    · subst hqp
      rw [mlookup_merase, if_pos rfl] at hq'
      simp at hq'
    · rw [mlookup_merase, if_neg hqp] at hq'
      have hnet : getPeerEndpoint net q = getPeerEndpoint m.network q := by
        rw [removeConnection_some_eq m.network p net h3]
        show mlookup (merase m.network p) q = mlookup m.network q
        rw [mlookup_merase, if_neg hqp]
      rw [hnet]
      exact hmd q s hq' hs
  -- arm 10: Connecting|Authorized / Unauthorizing, remove fails
  · have hq' : mlookup (merase (drain m).states p) q = some s := hq
    show (getPeerEndpoint m.network q).isSome = true
    by_cases hqp : q = p
    · subst hqp
      rw [mlookup_merase, if_pos rfl] at hq'
      simp at hq'
    · rw [mlookup_merase, if_neg hqp] at hq'
      exact hmd q s hq' hs
  -- arms 11-13: no mutation
  · exact hmd q s hq hs
  · exact hmd q s hq hs
  · exact hmd q s hq hs

/-- Witness for C6 amended at the freshly constructed manager. -/
theorem c6_registry_coverage_witness :
    registryCovers (nextState mInit "a" .Connecting).2 := by
  have hm : registryCovers mInit := by
    intro q s h hs
    simp [mInit, mlookup] at h
  exact c6_registry_coverage mInit "a" .Connecting hm (fun _ _ => by decide)


/-- C1: `next_state` implements the section-4.C dispatch table row by row —
from `Unknown`: `Connecting` stores `Internal` and notifies `Authorized` on an
inproc endpoint and otherwise stores and returns `Connecting`; `Unauthorizing`
removes the registry connection with no table insert and returns
`Unauthorized`; `TrustIdentifying` fails with
`InvalidMessageOrder(Unknown, action)`.  From `Connecting`: `Connecting`
fails with `AlreadyConnecting`; `TrustIdentifying(new_id)` renames the
registry entry, rekeys the table to `new_id ↦ Authorized`, notifies
`(new_id, Authorized)` and returns `Authorized`; `Unauthorizing` removes the
entry and the connection, notifies `(peer_id, Unauthorized)` and returns
`Unauthorized`.  From `Authorized`: `Unauthorizing` does the same removal and
notification; any other action fails with
`InvalidMessageOrder(Authorized, action)`; `Internal` and a stored
`Unauthorized` reject every action likewise.  Registry calls are taken in
their successful case; their failure case is claim C7. -/
theorem c1_dispatch_table (m : AuthState) (p : String) :
    (∀ ep, (mlookup (drain m).states p).getD .Unknown = .Unknown →
      getPeerEndpoint m.network p = some ep →
      strContains ep "inproc" = true →
      nextState m p .Connecting =
        (.ok .Internal,
          { drain m with
            states := minsert (drain m).states p .Internal
            log := m.log ++ [(p, .Authorized)] })) ∧
    ((mlookup (drain m).states p).getD .Unknown = .Unknown →
      (∀ ep, getPeerEndpoint m.network p = some ep →
        strContains ep "inproc" = false) →
      nextState m p .Connecting =
        (.ok .Connecting,
          { drain m with states := minsert (drain m).states p .Connecting })) ∧
    (∀ net, (mlookup (drain m).states p).getD .Unknown = .Unknown →
      removeConnection m.network p = some net →
      nextState m p .Unauthorizing =
        (.ok .Unauthorized, { drain m with network := net })) ∧
    (∀ q, (mlookup (drain m).states p).getD .Unknown = .Unknown →
      nextState m p (.TrustIdentifying q) =
        (.error (.InvalidMessageOrder .Unknown (.TrustIdentifying q)),
          drain m)) ∧
    ((mlookup (drain m).states p).getD .Unknown = .Connecting →
      nextState m p .Connecting = (.error .AlreadyConnecting, drain m)) ∧
    (∀ q net, (mlookup (drain m).states p).getD .Unknown = .Connecting →
      updatePeerId m.network p q = some net →
      nextState m p (.TrustIdentifying q) =
        (.ok .Authorized,
          { drain m with
            states := minsert (merase (drain m).states p) q .Authorized
            network := net
            log := m.log ++ [(q, .Authorized)] })) ∧
    (∀ net, (mlookup (drain m).states p).getD .Unknown = .Connecting →
      removeConnection m.network p = some net →
      nextState m p .Unauthorizing =
        (.ok .Unauthorized,
          { drain m with
            states := merase (drain m).states p
            network := net
            log := m.log ++ [(p, .Unauthorized)] })) ∧
    (∀ net, (mlookup (drain m).states p).getD .Unknown = .Authorized →
      removeConnection m.network p = some net →
      nextState m p .Unauthorizing =
        (.ok .Unauthorized,
          { drain m with
            states := merase (drain m).states p
            network := net
            log := m.log ++ [(p, .Unauthorized)] })) ∧
    (∀ a, (mlookup (drain m).states p).getD .Unknown = .Authorized →
      a ≠ .Unauthorizing →
      nextState m p a = (.error (.InvalidMessageOrder .Authorized a), drain m)) ∧
    (∀ a, (mlookup (drain m).states p).getD .Unknown = .Internal →
      nextState m p a = (.error (.InvalidMessageOrder .Internal a), drain m)) ∧
    (∀ a, (mlookup (drain m).states p).getD .Unknown = .Unauthorized →
      nextState m p a =
        (.error (.InvalidMessageOrder .Unauthorized a), drain m)) :=
  ⟨fun ep h1 h2 h3 => nextState_unknown_connecting_inproc m p ep h1 h2 h3,
   fun h1 h2 => nextState_unknown_connecting_plain m p h1 h2,
   fun net h1 h2 => nextState_unknown_unauthorizing_ok m p net h1 h2,
   fun q h1 => nextState_unknown_trust m p q h1,
   fun h1 => nextState_connecting_connecting m p h1,
   fun q net h1 h2 => nextState_connecting_trust_ok m p q net h1 h2,
   fun net h1 h2 => nextState_connecting_unauthorizing_ok m p net h1 h2,
   fun net h1 h2 => nextState_authorized_unauthorizing_ok m p net h1 h2,
   fun a h1 h2 => nextState_authorized_other m p a h1 h2,
   fun a h1 => nextState_internal m p a h1,
   fun a h1 => nextState_unauthorized_stored m p a h1⟩

/-- Witness for C1: the inproc row, the `AlreadyConnecting` row and the
`Connecting`-`Unauthorizing` row at concrete states. -/
theorem c1_dispatch_table_witness :
    nextState mInproc "ctl" .Connecting =
      (.ok .Internal,
        { drain mInproc with
          states := minsert (drain mInproc).states "ctl" .Internal
          log := mInproc.log ++ [("ctl", .Authorized)] }) ∧
    nextState mConnA "a" .Connecting = (.error .AlreadyConnecting, drain mConnA) ∧
    nextState mConnA "a" .Unauthorizing =
      (.ok .Unauthorized,
        { drain mConnA with
          states := merase (drain mConnA).states "a"
          network := merase mConnA.network "a"
          log := mConnA.log ++ [("a", .Unauthorized)] }) := by
  refine ⟨?_, ?_, ?_⟩
  · exact (c1_dispatch_table mInproc "ctl").1 "inproc://ctl" (by decide)
      (by decide) (by decide)
  · exact (c1_dispatch_table mConnA "a").2.2.2.2.1 (by decide)
  · exact (c1_dispatch_table mConnA "a").2.2.2.2.2.2.1 (merase mConnA.network "a")
      (by decide) (by decide)

end Splinter